import Mathlib

/-
Verification of the C shim layer in
`internal/plugins/ostree/pkg/libostree` (pull.go.h, options.go.h,
glib_helpers.go.h): a shallow embedding of the three files' functions,
together with models of the GLib calls they forward to, and proofs of
the behavioural properties of the shims.
-/

/-- A slot of the C `char**` array: `some s` models a non-null `char*`
owning the string `s`, and `none` models the NULL pointer. -/
abbrev Slot := Option String

/-- Model of the `char**` allocation handled by the ref-array helpers in
pull.go.h: `size` pointer slots are in bounds; `mem j` for `j ≥ size`
models the memory just past the allocation, whose contents are
arbitrary (the `junk` parameter of `MakeRefArray`). -/
structure RefArray where
  size : Nat
  mem : Nat → Slot

/-- Embeds `char** MakeRefArray(int size)`, i.e.
`calloc(sizeof(char*), size)`: a fresh allocation of `size`
zero-initialized (NULL) pointer slots.  The contents of the memory past
the end of the allocation are not controlled by the function and are
taken as an arbitrary parameter `junk`. -/
def MakeRefArray (size : Nat) (junk : Nat → Slot) : RefArray :=
  ⟨size, fun j => if j < size then none else junk j⟩

/-- Embeds `void AppendRef(char** refs, int index, char* ref)`, i.e.
`refs[index] = ref;`: the pointer is stored at the given index.  The C
code performs no bounds check, so the model writes at any index,
in bounds or not. -/
def AppendRef (refs : RefArray) (index : Nat) (ref : String) : RefArray :=
  ⟨refs.size, fun j => if j = index then some ref else refs.mem j⟩

/-- The in-bounds contents of the allocation, as the list of its `size`
slots in order. -/
def RefArray.slots (refs : RefArray) : List Slot :=
  (List.range refs.size).map refs.mem

/-- The scan a slot list undergoes in `FreeRefArray` (and in
`g_variant_new_strv(refs, -1)`): walk from index 0 up to the first NULL
entry and collect the strings of the contiguous non-null prefix.  The
result is `none` when no NULL entry occurs among the in-bounds slots:
in that case the C loop's next element access is past the end of the
allocation, i.e. the out-of-range branch of the indexing is reached. -/
def scanToNull : List Slot → Option (List String)
  | [] => none
  | none :: _ => some []
  | some s :: rest => (scanToNull rest).map (s :: ·)

/-- Observable effect of a successful `FreeRefArray` call: the element
pointers freed by the loop, in order, and whether the array block
itself was freed by the final `free(refs)`. -/
structure FreeTrace where
  freedElems : List String
  freedArray : Bool
deriving DecidableEq

/-- Embeds `void FreeRefArray(char** refs)`: `free(refs[i])` for
`i = 0, 1, ...` until `refs[i] == NULL`, then `free(refs)`.  A `none`
result models the scan running past the end of the allocation (no NULL
terminator among the in-bounds slots: out-of-bounds read). -/
def FreeRefArray (refs : RefArray) : Option FreeTrace :=
  (scanToNull refs.slots).map (fun l => ⟨l, true⟩)

/-- Model of the GLib `GVariant` values this fragment constructs:
plain strings, two-string tuples (format `(ss)`), string arrays
(`g_variant_new_strv`), boxed variant-typed values
(`g_variant_new_variant`), and dictionary entries with a string key and
a variant-typed value (format tag `{s@v}`). -/
inductive GVariant where
  | vstring : String → GVariant
  | vtuple2 : String → String → GVariant
  | vstrv : List String → GVariant
  | vvariant : GVariant → GVariant
  | vdictEntry : String → GVariant → GVariant
deriving DecidableEq

/-- Model of `GVariantBuilder`: the ordered list of aggregate entries
added so far. -/
structure GVariantBuilder where
  entries : List GVariant
deriving DecidableEq

/-- One argument passed to the variadic GLib `g_variant_builder_add`:
either a C string or a `GVariant*`. -/
inductive GArg where
  | str : String → GArg
  | var : GVariant → GArg
deriving DecidableEq

/-- Model of the variadic GLib `g_variant_builder_add`, interpreted at
the two format strings this fragment uses: `{s@v}` appends a
dictionary entry with a string key and the given variant-typed value,
and `(ss)` appends a two-string tuple.  (On any other format/argument
combination GLib aborts; that case is unreachable from the shims below,
which always pass matching arguments, and the model leaves the builder
unchanged there.) -/
def g_variant_builder_add (builder : GVariantBuilder) (format : String)
    (args : List GArg) : GVariantBuilder :=
  match format, args with
  | "{s@v}", [GArg.str key, GArg.var value] =>
      ⟨builder.entries ++ [GVariant.vdictEntry key value]⟩
  | "(ss)", [GArg.str key, GArg.str value] =>
      ⟨builder.entries ++ [GVariant.vtuple2 key value]⟩
  | _, _ => builder

/-- Embeds `g_variant_builder_add_variant` from options.go.h: the single
call `g_variant_builder_add(builder, "{s@v}", key, value)`. -/
def g_variant_builder_add_variant (builder : GVariantBuilder)
    (key : String) (value : GVariant) : GVariantBuilder :=
  g_variant_builder_add builder "{s@v}" [GArg.str key, GArg.var value]

/-- Embeds `g_variant_builder_add_string_tuple` from options.go.h: the
single call `g_variant_builder_add(builder, "(ss)", key, value)`. -/
def g_variant_builder_add_string_tuple (builder : GVariantBuilder)
    (key : String) (value : String) : GVariantBuilder :=
  g_variant_builder_add builder "(ss)" [GArg.str key, GArg.str value]

/-- Model of GLib `g_variant_new_variant`: boxes a value as a
variant-typed value. -/
def g_variant_new_variant (value : GVariant) : GVariant :=
  GVariant.vvariant value

/-- Model of GLib `g_variant_new_strv(strv, -1)`: reads the
null-terminated string array into a string-array value.  With length
-1 the read scans for the NULL terminator exactly as `FreeRefArray`
does; `none` models the scan running out of bounds when no terminator
is among the in-bounds slots. -/
def g_variant_new_strv (refs : RefArray) : Option GVariant :=
  (scanToNull refs.slots).map GVariant.vstrv

/-- Embeds `void g_variant_builder_add_refs(GVariantBuilder*, char**)`
from pull.go.h:
`g_variant_builder_add(builder, "{s@v}", "refs",
g_variant_new_variant(g_variant_new_strv(refs, -1)))`. -/
def g_variant_builder_add_refs (builder : GVariantBuilder)
    (refs : RefArray) : Option GVariantBuilder :=
  (g_variant_new_strv refs).map (fun sv =>
    g_variant_builder_add builder "{s@v}"
      [GArg.str "refs", GArg.var (g_variant_new_variant sv)])

/-- Decoder (spec side): recover the key and the value of an aggregate
dictionary entry. -/
def decodeDictEntry : GVariant → Option (String × GVariant)
  | GVariant.vdictEntry k v => some (k, v)
  | _ => none

/-- Decoder (spec side): recover the two components of a two-string
tuple. -/
def decodeStringTuple : GVariant → Option (String × String)
  | GVariant.vtuple2 k v => some (k, v)
  | _ => none

/-- Decoder (spec side): unbox a variant-typed value. -/
def unboxVariant : GVariant → Option GVariant
  | GVariant.vvariant v => some v
  | _ => none

/-- Decoder (spec side): recover the string list of a string-array
value. -/
def decodeStrv : GVariant → Option (List String)
  | GVariant.vstrv l => some l
  | _ => none

/-- Model of GLib `GError` (fields `domain`, `code`, `message`); the
`message` field stands for the `char*` pointer stored in the object. -/
structure GError where
  domain : Nat
  code : Int
  message : String
deriving DecidableEq

/-- Result of a C call that may hit a `g_assert` failure: `ret` is a
normal return, `assertAbort` is the unconditional program termination
raised by a failed assertion (no value is returned to the caller). -/
inductive CCall (α : Type) where
  | ret : α → CCall α
  | assertAbort : CCall α
deriving DecidableEq

/-- Embeds `_g_error_get_message` from glib_helpers.go.h:
`g_assert (error != NULL); return error->message;`.  The model returns
the message field paired with the error object as it stands after the
call (unchanged, still owned by the caller). -/
def _g_error_get_message (error : Option GError) : CCall (String × GError) :=
  match error with
  | none => CCall.assertAbort
  | some e => CCall.ret (e.message, e)

/-- Append the strings `ps` via `AppendRef` at the consecutive indices
`i, i+1, ...`. -/
def appendFrom (refs : RefArray) (i : Nat) : List String → RefArray
  | [] => refs
  | p :: ps => appendFrom (AppendRef refs i p) (i + 1) ps

/-- Append the strings `ps` via `AppendRef` at the contiguous indices
`0 .. ps.length - 1`. -/
def appendAll (refs : RefArray) (ps : List String) : RefArray :=
  appendFrom refs 0 ps

/-- A concrete junk pattern for the memory past an allocation, used by
the witness instantiations: every out-of-bounds slot reads as a
non-null pointer. -/
def junkSome : Nat → Slot := fun _ => some "junk"

theorem appendFrom_size (ps : List String) (refs : RefArray) (i : Nat) :
    (appendFrom refs i ps).size = refs.size := by
  induction ps generalizing refs i with
  | nil => rfl
  | cons p ps ih => exact ih (AppendRef refs i p) (i + 1)

theorem appendFrom_mem (ps : List String) (refs : RefArray) (i j : Nat) :
    (appendFrom refs i ps).mem j =
      if i ≤ j ∧ j < i + ps.length then ps[j - i]? else refs.mem j := by
  induction ps generalizing refs i with
  | nil =>
      simp only [appendFrom, List.length_nil]
      rw [if_neg (by omega)]
  | cons p ps ih =>
      show (appendFrom (AppendRef refs i p) (i + 1) ps).mem j = _
      rw [ih]
      simp only [AppendRef, List.length_cons]
      by_cases h1 : i + 1 ≤ j ∧ j < i + 1 + ps.length
      · rw [if_pos h1, if_pos (by omega)]
        have hji : j - i = (j - (i + 1)) + 1 := by omega
        rw [hji, List.getElem?_cons_succ]
      · rw [if_neg h1]
        by_cases h2 : j = i
        · subst h2
          rw [if_pos rfl, if_pos (by omega)]
          simp
        · rw [if_neg h2, if_neg (by omega)]

theorem getElem?_slots (a : RefArray) (j : Nat) :
    a.slots[j]? = if j < a.size then some (a.mem j) else none := by
  unfold RefArray.slots
  rw [List.getElem?_map]
  by_cases h : j < a.size
  · rw [if_pos h, List.getElem?_range h]
    rfl
  · rw [if_neg h, List.getElem?_eq_none (by simp; omega)]
    rfl

theorem getElem?_someMap_append_replicate (ps : List String) (k j : Nat) :
    (ps.map some ++ List.replicate k none : List Slot)[j]? =
      if j < ps.length then Option.map some ps[j]?
      else if j < ps.length + k then some none else none := by
  rw [List.getElem?_append]
  simp only [List.length_map]
  by_cases h1 : j < ps.length
  · rw [if_pos h1, if_pos h1, List.getElem?_map]
  · rw [if_neg h1, if_neg h1, List.getElem?_replicate]
    by_cases h2 : j < ps.length + k
    · rw [if_pos (by omega), if_pos h2]
    · rw [if_neg (by omega), if_neg h2]

theorem slots_appendAll (junk : Nat → Slot) (N : Nat) (ps : List String)
    (hK : ps.length ≤ N) :
    (appendAll (MakeRefArray N junk) ps).slots
      = ps.map some ++ List.replicate (N - ps.length) none := by
  have hsize : (appendAll (MakeRefArray N junk) ps).size = N := by
    show (appendFrom (MakeRefArray N junk) 0 ps).size = N
    rw [appendFrom_size]
    rfl
  have hmem : ∀ j, (appendAll (MakeRefArray N junk) ps).mem j
      = if j < ps.length then ps[j]? else if j < N then none else junk j := by
    intro j
    show (appendFrom (MakeRefArray N junk) 0 ps).mem j = _
    rw [appendFrom_mem]
    by_cases hj : j < ps.length
    · rw [if_pos (by omega), if_pos hj]
      simp
    · rw [if_neg (by omega), if_neg hj]
      rfl
  apply List.ext_getElem?
  intro j
  rw [getElem?_slots, hsize, getElem?_someMap_append_replicate]
  by_cases h1 : j < ps.length
  · rw [if_pos (show j < N by omega), if_pos h1, hmem j, if_pos h1,
      List.getElem?_eq_getElem h1]
    rfl
  · by_cases h2 : j < N
    · rw [if_pos h2, if_neg h1, if_pos (by omega), hmem j, if_neg h1, if_pos h2]
    · rw [if_neg h2, if_neg h1, if_neg (by omega)]

theorem scanToNull_someMap_append (ps : List String) (rest : List Slot) :
    scanToNull (ps.map some ++ (none :: rest)) = some ps := by
  induction ps with
  | nil => rfl
  | cons p ps ih => simp [scanToNull, ih]

theorem scanToNull_someMap (ps : List String) :
    scanToNull (ps.map some) = none := by
  induction ps with
  | nil => rfl
  | cons p ps ih => simp [scanToNull, ih]

/-- Claim C1: for every `N ≥ 1` and `K ≤ N - 1`, allocating `N` slots
with `MakeRefArray` and appending `K` non-null pointers at the
contiguous indices `0 .. K-1` (the remaining slots, the terminator slot
included, left NULL) makes `FreeRefArray` free exactly those `K`
populated entries, in order, and then the array block itself — no
more, no fewer — without ever reading out of bounds; for `K = 0` no
element is freed. -/
theorem freeRefArray_partial_fill (junk : Nat → Slot) (N : Nat)
    (ps : List String) (hN : 1 ≤ N) (hK : ps.length ≤ N - 1) :
    FreeRefArray (appendAll (MakeRefArray N junk) ps) = some ⟨ps, true⟩ := by
  unfold FreeRefArray
  rw [slots_appendAll junk N ps (by omega)]
  have hrep : N - ps.length = (N - ps.length - 1) + 1 := by omega
  rw [hrep, List.replicate_succ, scanToNull_someMap_append]
  rfl

/-- Witness for C1 at `N = 3`, `K = 2`: the two appended strings are
freed, in order, and the array block is freed. -/
theorem freeRefArray_partial_fill_witness :
    FreeRefArray (appendAll (MakeRefArray 3 junkSome) ["a", "b"])
      = some ⟨["a", "b"], true⟩ :=
  freeRefArray_partial_fill junkSome 3 ["a", "b"] (by decide) (by decide)

/-- Claim C7: for every count `N ≥ 0`, `MakeRefArray N` returns an
array of exactly `N` pointer slots in which every slot is
zero-initialized (NULL). -/
theorem makeRefArray_zeroed (size : Nat) (junk : Nat → Slot) (j : Nat)
    (hj : j < size) :
    (MakeRefArray size junk).size = size
      ∧ (MakeRefArray size junk).mem j = none :=
  ⟨rfl, by simp [MakeRefArray, hj]⟩

/-- Witness for C7 at `N = 3`, slot 1. -/
theorem makeRefArray_zeroed_witness :
    (MakeRefArray 3 junkSome).size = 3
      ∧ (MakeRefArray 3 junkSome).mem 1 = none :=
  makeRefArray_zeroed 3 junkSome 1 (by decide)

/-- Claim C9: `AppendRef refs index ref` stores exactly `ref` at slot
`index` and leaves every other slot, and the array size, unchanged; no
hypothesis bounds `index`, so the write lands even at an out-of-bounds
index — the operation performs no bounds checking. -/
theorem appendRef_stores_and_frames (refs : RefArray) (index : Nat)
    (ref : String) (j : Nat) (hj : j ≠ index) :
    (AppendRef refs index ref).mem index = some ref
      ∧ (AppendRef refs index ref).mem j = refs.mem j
      ∧ (AppendRef refs index ref).size = refs.size :=
  ⟨by simp [AppendRef], by simp [AppendRef, hj], rfl⟩

/-- Witness for C9 on a 2-slot array at the out-of-bounds index 5 (the
unchecked write happens there too), framing slot 0. -/
theorem appendRef_stores_and_frames_witness :
    (AppendRef (MakeRefArray 2 junkSome) 5 "x").mem 5 = some "x"
      ∧ (AppendRef (MakeRefArray 2 junkSome) 5 "x").mem 0
          = (MakeRefArray 2 junkSome).mem 0
      ∧ (AppendRef (MakeRefArray 2 junkSome) 5 "x").size
          = (MakeRefArray 2 junkSome).size :=
  appendRef_stores_and_frames (MakeRefArray 2 junkSome) 5 "x" 0 (by decide)

/-- Claim C8: if all `N` slots of a `MakeRefArray` allocation are
filled with non-null pointers (no NULL terminator slot), the
`FreeRefArray` scan finds no terminator among the in-bounds slots and
its next element access, at index `N`, is out of bounds: the result is
`none`, the model's out-of-range branch, so the no-crash guarantee
does not hold without the null-termination precondition. -/
theorem freeRefArray_oob_when_full (junk : Nat → Slot) (N : Nat)
    (ps : List String) (hfull : ps.length = N) :
    FreeRefArray (appendAll (MakeRefArray N junk) ps) = none := by
  subst hfull
  unfold FreeRefArray
  rw [slots_appendAll junk _ ps (by omega)]
  simp [scanToNull_someMap]

/-- Witness for C8 at `N = 2` with both slots filled. -/
theorem freeRefArray_oob_when_full_witness :
    FreeRefArray (appendAll (MakeRefArray 2 junkSome) ["a", "b"]) = none :=
  freeRefArray_oob_when_full junkSome 2 ["a", "b"] (by decide)

/-- Claim C3: for every non-null error object, `_g_error_get_message`
returns exactly the pointer stored in the object's `message` field,
and the error object after the call is the unchanged original — the
accessor has no side effect, takes no ownership and frees nothing. -/
theorem get_message_returns_stored_field (e : GError) :
    _g_error_get_message (some e) = CCall.ret (e.message, e) := rfl

/-- Claim C4: calling `_g_error_get_message` on a NULL error reference
hits the unconditional `g_assert` program termination, not a
recoverable return; and on every non-null reference the call returns
normally, so under the non-null precondition the assertion-failure
branch is unreachable. -/
theorem get_message_null_assert_aborts :
    _g_error_get_message none = CCall.assertAbort
      ∧ ∀ e : GError, ∃ r, _g_error_get_message (some e) = CCall.ret r :=
  ⟨rfl, fun e => ⟨(e.message, e), rfl⟩⟩

/-- Claim C5: each options.go.h helper is exactly one forwarded call to
the variadic `g_variant_builder_add` with its fixed format tag —
`{s@v}` for `g_variant_builder_add_variant` and `(ss)` for
`g_variant_builder_add_string_tuple` — and performs nothing beyond
that call: the builder gains exactly the one entry the library call
appends. -/
theorem add_helpers_forward_exactly (builder : GVariantBuilder)
    (key tupleValue : String) (value : GVariant) :
    g_variant_builder_add_variant builder key value
        = g_variant_builder_add builder "{s@v}" [GArg.str key, GArg.var value]
      ∧ g_variant_builder_add_string_tuple builder key tupleValue
        = g_variant_builder_add builder "(ss)" [GArg.str key, GArg.str tupleValue]
      ∧ (g_variant_builder_add_variant builder key value).entries
        = builder.entries ++ [GVariant.vdictEntry key value]
      ∧ (g_variant_builder_add_string_tuple builder key tupleValue).entries
        = builder.entries ++ [GVariant.vtuple2 key tupleValue] :=
  ⟨rfl, rfl, rfl, rfl⟩

/-- Claim C6: an entry built by `g_variant_builder_add_string_tuple`
decodes back to exactly the original key and value, and an entry built
by `g_variant_builder_add_variant` decodes back to exactly the
original key and tagged value: build-then-decode is the identity. -/
theorem add_helpers_roundtrip (builder : GVariantBuilder)
    (key tupleValue : String) (value : GVariant) :
    ((g_variant_builder_add_string_tuple builder key tupleValue).entries.getLast?).bind
        decodeStringTuple = some (key, tupleValue)
      ∧ ((g_variant_builder_add_variant builder key value).entries.getLast?).bind
        decodeDictEntry = some (key, value) := by
  constructor
  · show ((builder.entries ++ [GVariant.vtuple2 key tupleValue]).getLast?).bind _ = _
    rw [List.getLast?_concat]
    rfl
  · show ((builder.entries ++ [GVariant.vdictEntry key value]).getLast?).bind _ = _
    rw [List.getLast?_concat]
    rfl

/-- Claim C2: for every null-terminated ref array whose non-null
entries occupy a contiguous prefix `ps`, `g_variant_builder_add_refs`
appends to the builder exactly one aggregate entry, whose key is
exactly the string "refs" and whose value is the tagged string-array
of `ps`; decoding that entry recovers the key "refs" and, after
unboxing, exactly the original ordered string sequence `ps`. -/
theorem add_refs_key_and_roundtrip (builder : GVariantBuilder)
    (refs : RefArray) (ps : List String) (rest : List Slot)
    (hrest : ∀ s ∈ rest, s = (none : Slot))
    (h : refs.slots = ps.map some ++ (none :: rest)) :
    g_variant_builder_add_refs builder refs
        = some ⟨builder.entries
            ++ [GVariant.vdictEntry "refs"
                  (GVariant.vvariant (GVariant.vstrv ps))]⟩
      ∧ decodeDictEntry
            (GVariant.vdictEntry "refs" (GVariant.vvariant (GVariant.vstrv ps)))
          = some ("refs", GVariant.vvariant (GVariant.vstrv ps))
      ∧ (unboxVariant (GVariant.vvariant (GVariant.vstrv ps))).bind decodeStrv
          = some ps := by
  refine ⟨?_, rfl, rfl⟩
  unfold g_variant_builder_add_refs g_variant_new_strv
  rw [h, scanToNull_someMap_append]
  rfl

/-- A concrete null-terminated array for the C2 witness: 3 slots, one
string appended, the rest NULL. -/
def termArray : RefArray := appendAll (MakeRefArray 3 junkSome) ["a"]

/-- A concrete empty builder for the witnesses. -/
def emptyBuilder : GVariantBuilder := ⟨[]⟩

/-- Witness for C2 on a concrete 3-slot array holding the single
string "a". -/
theorem add_refs_key_and_roundtrip_witness :
    g_variant_builder_add_refs emptyBuilder termArray
        = some ⟨emptyBuilder.entries
            ++ [GVariant.vdictEntry "refs"
                  (GVariant.vvariant (GVariant.vstrv ["a"]))]⟩
      ∧ decodeDictEntry
            (GVariant.vdictEntry "refs" (GVariant.vvariant (GVariant.vstrv ["a"])))
          = some ("refs", GVariant.vvariant (GVariant.vstrv ["a"]))
      ∧ (unboxVariant (GVariant.vvariant (GVariant.vstrv ["a"]))).bind decodeStrv
          = some ["a"] :=
  add_refs_key_and_roundtrip emptyBuilder termArray ["a"] [none]
    (by decide) (by decide)

/-- Claim C10: both `FreeRefArray` and `g_variant_builder_add_refs`
treat the first NULL slot as the end of the array: if a NULL occupies
the slot right after the prefix `ps` while a non-null pointer `q`
occupies a later slot, `FreeRefArray` frees exactly the entries of
`ps` and nothing after the gap, and `g_variant_builder_add_refs`
encodes exactly the string sequence `ps`, silently dropping everything
after the gap. -/
theorem gap_truncates_free_and_refs (builder : GVariantBuilder)
    (refs : RefArray) (ps : List String) (rest : List Slot) (q : String)
    (hq : (some q : Slot) ∈ rest)
    (h : refs.slots = ps.map some ++ (none :: rest)) :
    FreeRefArray refs = some ⟨ps, true⟩
      ∧ g_variant_builder_add_refs builder refs
        = some ⟨builder.entries
            ++ [GVariant.vdictEntry "refs"
                  (GVariant.vvariant (GVariant.vstrv ps))]⟩ := by
  constructor
  · unfold FreeRefArray
    rw [h, scanToNull_someMap_append]
    rfl
  · unfold g_variant_builder_add_refs g_variant_new_strv
    rw [h, scanToNull_someMap_append]
    rfl

/-- A concrete gapped array for the C10 witness: slots
`[some "a", none, some "b"]`. -/
def gapArray : RefArray :=
  AppendRef (AppendRef (MakeRefArray 3 junkSome) 0 "a") 2 "b"

/-- Witness for C10 on the concrete gapped array: the string after the
gap is neither freed nor encoded. -/
theorem gap_truncates_free_and_refs_witness :
    FreeRefArray gapArray = some ⟨["a"], true⟩
      ∧ g_variant_builder_add_refs emptyBuilder gapArray
        = some ⟨emptyBuilder.entries
            ++ [GVariant.vdictEntry "refs"
                  (GVariant.vvariant (GVariant.vstrv ["a"]))]⟩ :=
  gap_truncates_free_and_refs emptyBuilder gapArray ["a"] [some "b"] "b"
    (by decide) (by decide)
